import Mathlib

/-!
Verification development for the Telegram-configs extraction pipeline
(`src/app.py`).  The Python source is shallowly embedded: every function
below mirrors one Python function of the source; file-system state is
passed explicitly (file contents as `List String`, directories as total
functions or association lists), the GeoIP reader and the network fetch
are modelled as input functions, and Python exceptions are modelled with
`Option`/`Except`.
-/

/-! ## String utilities

Python `str.split(sep)` for a one-character separator, `str.split(sep)`
for the two-character separator `": "`, `str.strip()`, and `int(...)`
are modelled on the underlying character list so that all definitions
reduce inside the kernel.  The semantics match CPython: `split` keeps
empty fields (`"a@@b".split('@') == ["a","","b"]`, `"".split('@') ==
[""]`), `strip` removes leading and trailing whitespace, and `int`
accepts surrounding whitespace around a digit string.
-/

def splitCharAux (sep : Char) : List Char → List Char → List (List Char)
  | [], acc => [acc.reverse]
  | c :: cs, acc =>
    if c = sep then acc.reverse :: splitCharAux sep cs []
    else splitCharAux sep cs (c :: acc)

/-- Python `s.split(sep)` for a single-character separator `sep`. -/
def pySplit (sep : Char) (s : String) : List String :=
  (splitCharAux sep s.data []).map String.mk

/-- Auxiliary scanner for a two-character separator `s0 s1`: splits at every
(leftmost, non-overlapping) occurrence, as Python `str.split` does. -/
def splitSeq2Aux (s0 s1 : Char) : List Char → List Char → List (List Char)
  | [], acc => [acc.reverse]
  | [c], acc => [(c :: acc).reverse]
  | c :: c2 :: cs, acc =>
    if c = s0 ∧ c2 = s1 then acc.reverse :: splitSeq2Aux s0 s1 cs []
    else splitSeq2Aux s0 s1 (c2 :: cs) (c :: acc)

/-- Python `s.split(": ")`, the separator used by the log files. -/
def pySplitColonSpace (s : String) : List String :=
  (splitSeq2Aux ':' ' ' s.data []).map String.mk

/-- Python `s.strip()`: remove leading and trailing whitespace. -/
def pyStrip (s : String) : String :=
  String.mk (((s.data.dropWhile Char.isWhitespace).reverse.dropWhile Char.isWhitespace).reverse)

/-- Python `s1.startswith(s2)` (used as `text.startswith(key + "://")`). -/
def pyStartsWith (pre s : String) : Bool :=
  pre.data.isPrefixOf s.data

/-- Python `int(s)` restricted to the non-negative numerals this program
writes: surrounding whitespace is accepted, and the digits are read in
base 10.  `none` models a `ValueError`. -/
def parseNatPy (s : String) : Option Nat :=
  let t := (pyStrip s).data
  if t.isEmpty then none
  else t.foldl (fun acc c =>
    match acc with
    | none => none
    | some n => if c.isDigit then some (n * 10 + (c.toNat - 48)) else none) (some 0)

/-- Lexicographic comparison of strings by code point, Python's `<` on `str`
(used only by `list.sort()` on channel names). -/
def pyStrLt : List Char → List Char → Bool
  | [], [] => false
  | [], _ :: _ => true
  | _ :: _, [] => false
  | a :: as, b :: bs => if a.val < b.val then true else if b.val < a.val then false else pyStrLt as bs

/-- Stable insertion sort in ascending `pyStrLt` order, Python `list.sort()`
on the deduplicated channel list. -/
def insertStr (x : String) : List String → List String
  | [] => [x]
  | y :: ys => if pyStrLt y.data x.data then y :: insertStr x ys else x :: y :: ys

def sortStrings : List String → List String
  | [] => []
  | x :: xs => insertStr x (sortStrings xs)

/-! ## Link extractor (`get_v2ray_links`, src/app.py lines 128-145)

The Python function fetches a page, collects the text of every message
element, and for each text adds the *whole* text to the set of the first
scheme `key` (in dict insertion order `vmess, vless, ss, trojan, tuic`)
such that `text.startswith(key + "://")` — there is no substring search
and no match bounding; a text matching no scheme is dropped.  The page
fetch itself is an external collaborator, so the embedding takes the
list of message texts: a failed fetch is `none` at the call sites below.
-/

/-- The recognized protocol tags, in the dict insertion order of
`config_types` in the source. -/
def schemes : List String := ["vmess", "vless", "ss", "trojan", "tuic"]

/-- The inner loop `for key in config_types: if text.startswith(f"{key}://"):
config_types[key].add(text); break` — the first scheme whose `scheme://`
starts the text, if any. -/
def classifyText (text : String) : Option String :=
  schemes.find? (fun k => pyStartsWith (k ++ "://") text)

/-- The per-scheme result set of `get_v2ray_links` on a successfully fetched
page whose message elements have texts `texts` (Python sets are modelled as
deduplicated lists). -/
def get_v2ray_links (texts : List String) (k : String) : List String :=
  (texts.filter (fun t => classifyText t = some k)).dedup

/-! ## IP extraction (`extract_server_ip`, src/app.py lines 259-269)

`config.split('@')` followed by `parts[1].split(':')`: the function
returns the text of the segment *between the first and second `'@'`*
up to that segment's first `':'`, provided the config contains an `'@'`
and that segment contains a `':'`; otherwise Python returns `None`.
Note `parts[1]` is the segment after the *first* `'@'`, and the returned
token may be the empty string (for configs like `"a@:1"`), which the
caller's `if ip:` truthiness test then treats as a failure.
-/

def extract_server_ip (config : String) : Option String :=
  match pySplit '@' config with
  | _ :: seg :: _ =>
    match pySplit ':' seg with
    | ipPart :: _ :: _ => some ipPart
    | _ => none
  | _ => none

/-- Modelled from the spec's words for claim C5 only (refinement
comparison): "the token between the last `@` and the following `:` in the
ConfigEntry string" — the segment after the *last* `'@'` up to its first
`':'`. -/
def specLastAtIP (config : String) : Option String :=
  match (pySplit '@' config).reverse with
  | lastSeg :: _ :: _ =>
    match pySplit ':' lastSeg with
    | ipPart :: _ :: _ => some ipPart
    | _ => none
  | _ => none

/-! ## Geo lookup (`get_country_from_ip`, src/app.py lines 271-282)

The GeoLite2 reader is an external collaborator: `reader ip` is
`.ok (some name)` when the database returns a country name, `.ok none`
when it returns `None`, and `.error e` when the lookup raises
(`AddressNotFoundError` or any other exception — both handlers return
the same value).  Python's `country_name if country_name else "Unknown"`
maps both `None` and `""` to the sentinel.
-/

def get_country_from_ip (reader : String → Except String (Option String)) (ip : String) : String :=
  match reader ip with
  | .ok (some name) => if name = "" then "Unknown" else name
  | .ok none => "Unknown"
  | .error _ => "Unknown"

/-! ## Canonical store and merge (`extract_and_update_channel`, src/app.py lines 216-256)

The per-protocol store is the directory `ServerByType/` with one file
`{key}.txt` per scheme.  A `Store` carries the file contents per scheme
key (`files`) and the in-memory `existing_servers` sets loaded at run
start (`existing`), both as total functions from the key; Python sets
are modelled as lists used up to membership.  `mergeKey` is the body of
the `for key, values in configs.items()` loop: it computes
`new_servers = set(values) - existing_servers[key]`, skips all file I/O
when that set is empty (`continue`), re-filters it against the same set
(`filtered_servers`, identical by construction but kept verbatim), and
otherwise appends the filtered servers to `{key}.txt` and unions them
into `existing_servers[key]`.  The returned number is
`new_servers_count = len(filtered_servers)`.
-/

structure Store where
  existing : String → List String
  files : String → List String

def newServers (st : Store) (k : String) (values : List String) : List String :=
  values.dedup.filter (fun s => decide (s ∉ st.existing k))

def mergeKey (st : Store) (k : String) (values : List String) : Store × Nat :=
  let ns := newServers st k values
  if ns = [] then (st, 0)
  else
    let filtered := ns.filter (fun s => decide (s ∉ st.existing k))
    (⟨fun k2 => if k2 = k then st.existing k ++ filtered else st.existing k2,
      fun k2 => if k2 = k then st.files k ++ filtered else st.files k2⟩,
      filtered.length)

/-- One iteration of the `for key, values in configs.items()` loop of
`extract_and_update_channel`: perform `mergeKey` and accumulate
`server_counts_new[key] += new_servers_count` (the threaded counts
function) and `total_new_servers += new_servers_count`. -/
def mergeStep (cfgs : String → List String) (acc : (Store × (String → Nat)) × Nat) (k : String) :
    (Store × (String → Nat)) × Nat :=
  let r := mergeKey acc.1.1 k (cfgs k)
  ((r.1, fun k2 => if k2 = k then acc.1.2 k2 + r.2 else acc.1.2 k2), acc.2 + r.2)

/-- The whole `for key, values in configs.items()` loop. -/
def mergeChannel (st : Store) (counts : String → Nat) (cfgs : String → List String) :
    (Store × (String → Nat)) × Nat :=
  schemes.foldl (mergeStep cfgs) ((st, counts), 0)

/-- `extract_and_update_channel(url)`: the fetch result is an input
(`none` models `get_v2ray_links` returning `None` on a request
exception).  A present mapping — even one with all five lists empty,
which is still a truthy dict in Python — takes the success branch.
Returns `((successful_new, failed_new, total_new_servers), store,
server_counts_new)`. -/
def extract_and_update_channel (fetched : Option (String → List String))
    (st : Store) (counts : String → Nat) :
    (Nat × Nat × Nat) × Store × (String → Nat) :=
  match fetched with
  | some cfgs =>
    let r := mergeChannel st counts cfgs
    ((1, 0, r.2), r.1.1, r.1.2)
  | none => ((0, 1, 0), st, counts)

/-! ## Region classification (src/app.py lines 284-361)

State of the classification phase: the `Log/country_count.log` file
content (`none` when absent), the global counters `successful_servers`
and `failed_servers`, the region files `ServerByRegion/{region}.txt`
(an association list from region name to file lines), and
`ServerByType/invalid_links.txt`.
-/

structure GeoState where
  ccFile : Option (List String)
  successful : Nat
  failed : Nat
  regionFiles : List (String × List String)
  invalidLinks : List String

def geoInit : GeoState :=
  { ccFile := none, successful := 0, failed := 0, regionFiles := [], invalidLinks := [] }

/-- `country_count[country_name] = count` on a Python dict modelled as an
association list in insertion order: overwrite the first binding of the
key, or append a new binding. -/
def upsertCC (cc : List (String × Nat)) (k : String) (v : Nat) : List (String × Nat) :=
  match cc with
  | [] => [(k, v)]
  | (a, b) :: rest => if a = k then (a, v) :: rest else (a, b) :: upsertCC rest k v

/-- `country_count.get(country, 0)`. -/
def ccGet (cc : List (String × Nat)) (k : String) : Nat :=
  match cc.find? (fun p => p.1 = k) with
  | some p => p.2
  | none => 0

/-- `sorted(country_count.items(), key=lambda x: x[1], reverse=True)`:
stable descending sort by count (CPython's `sorted` is stable, so equal
counts keep dict insertion order). -/
def insertDescCC (p : String × Nat) : List (String × Nat) → List (String × Nat)
  | [] => [p]
  | q :: rest => if p.2 < q.2 then q :: insertDescCC p rest else p :: q :: rest

def sortDescCC : List (String × Nat) → List (String × Nat)
  | [] => []
  | p :: rest => insertDescCC p (sortDescCC rest)

def sumCounts (cc : List (String × Nat)) : Nat :=
  (cc.map (fun p => p.2)).sum

/-- The text written to `country_count.log`: four header lines followed by
one `"Country: count"` line per entry. -/
def renderCC (total succ fail : Nat) (counts : List (String × Nat)) : List String :=
  ["All servers: " ++ Nat.repr total,
   "Successful: " ++ Nat.repr succ,
   "Failed: " ++ Nat.repr fail,
   "===== Countries ====="] ++
  counts.map (fun p => p.1 ++ ": " ++ Nat.repr p.2)

/-- The read-back loop of `update_country_count`: `for line in lines[2:]`
splits each line on `": "` and records `parts[0] -> int(parts[1])` when
there are exactly two parts (an unparsable count becomes 0).  Note the
file is written with *four* header lines but only *two* are skipped, so
the previous `"Failed: n"` header line is parsed as a country named
`"Failed"` with count `n`. -/
def parseCCLines (lines : List String) : List (String × Nat) :=
  (lines.drop 2).foldl (fun cc line =>
    match pySplitColonSpace (pyStrip line) with
    | [a, b] => upsertCC cc a ((parseNatPy b).getD 0)
    | _ => cc) []

/-- `update_country_count(country)` with the global `total_servers` passed
explicitly: re-read `country_count.log`, increment the country's count,
recompute `successful_servers` as the sum of all counts, and rewrite the
file. -/
def update_country_count (total : Nat) (country : String) (st : GeoState) : GeoState :=
  let cc0 := match st.ccFile with
    | some lines => parseCCLines lines
    | none => []
  let cc1 := upsertCC cc0 country (ccGet cc0 country + 1)
  let sorted := sortDescCC cc1
  let succ := sumCounts sorted
  { st with successful := succ,
            ccFile := some (renderCC total succ st.failed sorted) }

/-- Append one line to `ServerByRegion/{region}.txt` (`open(..., 'a')`). -/
def regionAppend (rf : List (String × List String)) (r : String) (c : String) :
    List (String × List String) :=
  match rf with
  | [] => [(r, [c])]
  | (a, l) :: rest => if a = r then (a, l ++ [c]) :: rest else (a, l) :: regionAppend rest r c

/-- The lines of `ServerByRegion/{r}.txt` (empty when the file is absent):
first binding of `r` in the directory association list (`regionAppend`
keeps bindings unique, extending the first occurrence of a name). -/
def regionLines (rf : List (String × List String)) (r : String) : List String :=
  match rf with
  | [] => []
  | (a, l) :: rest => if a = r then l else regionLines rest r

/-- Total number of lines across all region files. -/
def regionTotal (rf : List (String × List String)) : Nat :=
  (rf.map (fun p => p.2.length)).sum

/-- The body of the `for config in configs` loop of
`save_configs_by_region`: Python's `if ip:` is falsy both for `None` and
for the empty string.  On a truthy IP whose region is not `"Unknown"`,
the config is appended to the region file and `update_country_count`
runs; a region `"Unknown"` only increments `failed_servers`; a falsy IP
increments `failed_servers` and appends the config to
`invalid_links.txt`. -/
def processConfig (reader : String → Except String (Option String)) (total : Nat)
    (st : GeoState) (config : String) : GeoState :=
  match extract_server_ip config with
  | some ip =>
    if ip = "" then
      { st with failed := st.failed + 1, invalidLinks := st.invalidLinks ++ [config] }
    else
      let region := get_country_from_ip reader ip
      if region = "Unknown" then { st with failed := st.failed + 1 }
      else
        update_country_count total region
          { st with regionFiles := regionAppend st.regionFiles region config }
  | none =>
    { st with failed := st.failed + 1, invalidLinks := st.invalidLinks ++ [config] }

/-- `save_configs_by_region(configs, reader)` with the global
`total_servers` passed explicitly. -/
def save_configs_by_region (reader : String → Except String (Option String)) (total : Nat)
    (st : GeoState) (configs : List String) : GeoState :=
  configs.foldl (processConfig reader total) st

/-! ## Run report (`read_previous_data` / `save_updated_data`, src/app.py lines 28-125)

`ExtractionReport.log` is modelled as a record of the numbers the
program writes; the textual round trip was checked against the source by
hand and is reflected in `read_previous_data` below:
* the per-scheme lines are written as `f"{key.upper():<12} Servers: {count}"`,
  so `line.split(" Servers: ")[0]` keeps the padding spaces and
  `parts[0].lower()` (e.g. `"vmess       "`) is never a key of
  `prev_server_counts_new` — the previous per-scheme counts always read
  back as 0 (they are also never used by the main program);
* `"Total Extracted Servers: n"`, `"Successful Channels:     n"` and
  `"Failed Channels:         n"` in the `=== Extraction Summary New ===`
  section parse back via `int`, which strips the padding spaces;
* the channel-statistics section is written with the header
  `"=== Channel Statistics ================== "`, which never equals the
  string `"=== Channel Statistics ==="` the reader compares against, so
  `prev_channel_stats` always reads back empty.
-/

structure ChanStat where
  totalServers : Nat
  count : Nat
  succ : Nat
  fail : Nat
deriving DecidableEq

structure LogData where
  countsNew : String → Nat
  countsAll : String → Nat
  totalNew : Nat
  totalAll : Nat
  succNew : Nat
  succAll : Nat
  failNew : Nat
  failAll : Nat
  chanStats : List (String × ChanStat)

/-- `read_previous_data()` restricted to the values that actually parse
back from the written report (see the section comment): the three
`Extraction Summary New` totals.  The per-scheme counts and the channel
statistics always read back as zeros / empty. -/
def read_previous_data (log : Option LogData) : Nat × Nat × Nat :=
  match log with
  | none => (0, 0, 0)
  | some l => (l.totalNew, l.succNew, l.failNew)

/-- `update_channel_stats(channel_url, new_servers_count, successful, failed)`. -/
def update_channel_stats (stats : List (String × ChanStat)) (url : String)
    (n succ fail : Nat) : List (String × ChanStat) :=
  match stats with
  | [] => [(url, ⟨n, n, succ, fail⟩)]
  | (a, s) :: rest =>
    if a = url then
      (a, ⟨s.totalServers + n, s.count + n, s.succ + succ, s.fail + fail⟩) :: rest
    else (a, s) :: update_channel_stats rest url n succ fail

/-- Accumulator of the main extraction loop: the store, the global
`server_counts_new` per key, the running totals, and `channel_stats`.
`countsStart` keeps `existing_server_counts` (the per-key file line
counts taken once at startup by `count_servers_in_files`). -/
structure ExtAcc where
  store : Store
  countsStart : String → Nat
  countsNew : String → Nat
  totalNew : Nat
  succNew : Nat
  failNew : Nat
  stats : List (String × ChanStat)

/-- One iteration of `for url in telegram_urls`: run
`extract_and_update_channel` (which also updates `channel_stats` in its
success branch via `update_channel_stats`) and accumulate the run
totals. -/
def extChannelStep (acc : ExtAcc) (ch : String × Option (String → List String)) : ExtAcc :=
  let r := extract_and_update_channel ch.2 acc.store acc.countsNew
  let stats := match ch.2 with
    | some _ => update_channel_stats acc.stats ch.1 r.1.2.2 r.1.1 r.1.2.1
    | none => acc.stats
  { store := r.2.1,
    countsStart := acc.countsStart,
    countsNew := r.2.2,
    totalNew := acc.totalNew + r.1.2.2,
    succNew := acc.succNew + r.1.1,
    failNew := acc.failNew + r.1.2.1,
    stats := stats }

/-- `load_existing_servers()`: `existing_servers[key] = set(file lines)`. -/
def load_existing_servers (files : String → List String) : String → List String :=
  fun k => (files k).dedup

/-- The initial accumulator of a run over the persisted files `files0`:
`count_servers_in_files` and `load_existing_servers` both read the file
contents at startup. -/
def extInit (files0 : String → List String) : ExtAcc :=
  { store := ⟨load_existing_servers files0, files0⟩,
    countsStart := fun k => (files0 k).length,
    countsNew := fun _ => 0,
    totalNew := 0, succNew := 0, failNew := 0, stats := [] }

/-- The whole extraction loop over the channel list, each channel paired
with its fetch outcome. -/
def runExtraction (chs : List (String × Option (String → List String)))
    (files0 : String → List String) : ExtAcc :=
  chs.foldl extChannelStep (extInit files0)

/-- `save_updated_data(...)` as called from the main loop: the report
written after the last channel.  Every `All` number is the previous
report's `New` number (via `read_previous_data`) plus this run's
accumulated in-memory total, and the per-scheme `All` counts are the
startup line counts plus the in-memory `server_counts_new`. -/
def save_updated_data (prevLog : Option LogData) (acc : ExtAcc) : LogData :=
  let prev := read_previous_data prevLog
  { countsNew := acc.countsNew,
    countsAll := fun k => acc.countsStart k + acc.countsNew k,
    totalNew := acc.totalNew,
    totalAll := prev.1 + acc.totalNew,
    succNew := acc.succNew,
    succAll := prev.2.1 + acc.succNew,
    failNew := acc.failNew,
    failAll := prev.2.2 + acc.failNew,
    chanStats := acc.stats }

/-! ## Channel list and main program (src/app.py lines 178-197 and 364-425) -/

/-- `read_telegram_channels(file_path)`: `none` models a missing or
unreadable file (both exception handlers return `[]`); otherwise the
lines are stripped, empties dropped, deduplicated (`list(set(...))`) and
sorted.  The rewrite of the file in place is a side effect no claim
depends on and is not carried in the result. -/
def read_telegram_channels (file : Option (List String)) : List String :=
  match file with
  | none => []
  | some ls => sortStrings ((ls.map pyStrip).filter (fun l => l ≠ "")).dedup

/-- `get_v2ray_links_from_folder(Path(ServerByType))`: every `*.txt` file
of the folder except `invalid_links.txt` (the other two excluded names
live in `Log/`), i.e. the five per-scheme files, concatenated.  The
glob order of the folder is modelled as the fixed scheme order. -/
def get_v2ray_links_from_folder (files : String → List String) : List String :=
  (schemes.map files).flatten

/-- Outcome of one full program run: `exit = some c` models `sys.exit(c)`,
`none` a normal end; the persisted artifacts are the per-scheme files,
the extraction report, and the geo-phase state. -/
structure RunOutcome where
  exit : Option Nat
  store : Store
  log : Option LogData
  geo : GeoState

/-- One invocation of the program (`__main__`): read the channel list
(exit 1 when it comes back empty), run the extraction loop writing the
report after every channel, then open the GeoLite2 reader
(`geoOpens = false` models `FileNotFoundError` or any other exception —
both handlers call `sys.exit(1)`, after the extraction artifacts were
already written), re-read the merged folder and classify.  An empty
merged folder skips classification.  The in-process geo counters start
at 0 each run; the classification state (`geo0`) carries the persisted
files (`country_count.log`, region files, `invalid_links.txt`) with the
counters of the fresh process. -/
def runOnce (channelFile : Option (List String))
    (fetch : String → Option (String → List String))
    (geoOpens : Bool)
    (reader : String → Except String (Option String))
    (prevLog : Option LogData)
    (files0 : String → List String)
    (geo0 : GeoState) : RunOutcome :=
  let urls := read_telegram_channels channelFile
  if urls = [] then
    { exit := some 1, store := ⟨load_existing_servers files0, files0⟩, log := prevLog, geo := geo0 }
  else
    let acc := runExtraction (urls.map (fun u => (u, fetch u))) files0
    let log := some (save_updated_data prevLog acc)
    if geoOpens then
      let configs := get_v2ray_links_from_folder acc.store.files
      let geo := if configs = [] then geo0
        else save_configs_by_region reader configs.length geo0 configs
      { exit := none, store := acc.store, log := log, geo := geo }
    else
      { exit := some 1, store := acc.store, log := log, geo := geo0 }

/-! ## Concrete scenarios used by the claim theorems -/

/-- A GeoLite2 reader fixture: two resolvable IPs, everything else raises
`AddressNotFoundError`. -/
def readerDE_FR : String → Except String (Option String) := fun ip =>
  if ip = "1.1.1.1" then .ok (some "Germany")
  else if ip = "2.2.2.2" then .ok (some "France")
  else .error "AddressNotFoundError"

def c1configs : List String := ["badconfig", "x@1.1.1.1:80", "y@2.2.2.2:80"]

def c1final : GeoState := save_configs_by_region readerDE_FR 3 geoInit c1configs

def emptyFiles : String → List String := fun _ => []

def cfgA : String → List String := fun k => if k = "vmess" then ["vmess://A"] else []
def cfgB : String → List String := fun k => if k = "vmess" then ["vmess://B"] else []

def c8chanFile : Option (List String) := some ["tgchan"]

def c8run1 : RunOutcome :=
  runOnce c8chanFile (fun _ => some cfgA) false readerDE_FR none emptyFiles geoInit
def c8run2 : RunOutcome :=
  runOnce c8chanFile (fun _ => some cfgB) false readerDE_FR c8run1.log c8run1.store.files geoInit
def c8run3 : RunOutcome :=
  runOnce c8chanFile (fun _ => some cfgA) false readerDE_FR c8run2.log c8run2.store.files geoInit

def c2geo1 : GeoState := save_configs_by_region readerDE_FR 1 geoInit ["x@1.1.1.1:80"]
def c2geo2 : GeoState :=
  save_configs_by_region readerDE_FR 1 { c2geo1 with successful := 0, failed := 0 } ["x@1.1.1.1:80"]

def c6geo0 : GeoState := { geoInit with regionFiles := [("Germany", ["old"])] }
def c6run : GeoState := save_configs_by_region readerDE_FR 1 c6geo0 ["x@1.1.1.1:80"]

/-! ## Merge lemmas -/

theorem mergeKey_of_no_new (st : Store) (k : String) (values : List String)
    (h : ∀ v ∈ values, v ∈ st.existing k) : mergeKey st k values = (st, 0) := by
  have hns : newServers st k values = [] := by
    simp only [newServers, List.filter_eq_nil_iff, decide_eq_true_eq]
    intro a ha
    exact fun hna => hna (h a (List.mem_dedup.1 ha))
  simp [mergeKey, hns]

theorem mergeKey_mem_existing (st : Store) (k : String) (values : List String) (v : String)
    (hv : v ∈ values) : v ∈ ((mergeKey st k values).1.existing k) := by
  have hvd : v ∈ values.dedup := List.mem_dedup.2 hv
  by_cases hex : v ∈ st.existing k
  · by_cases hns : newServers st k values = []
    · simpa [mergeKey, hns] using hex
    · simp only [mergeKey, if_neg hns]
      exact List.mem_append_left _ hex
  · have hvns : v ∈ newServers st k values := by
      simp [newServers, List.mem_filter, hvd, hex]
    have hns : newServers st k values ≠ [] := List.ne_nil_of_mem hvns
    have hvf : v ∈ (newServers st k values).filter (fun s => decide (s ∉ st.existing k)) := by
      simp [List.mem_filter, hvns, hex]
    simp only [mergeKey, if_neg hns]
    exact List.mem_append_right _ hvf

theorem mergeKey_existing_mono (st : Store) (k : String) (values : List String)
    (k2 v : String) (hv : v ∈ st.existing k2) : v ∈ ((mergeKey st k values).1.existing k2) := by
  by_cases hns : newServers st k values = []
  · simpa [mergeKey, hns] using hv
  · simp only [mergeKey, if_neg hns]
    by_cases hk : k2 = k
    · subst hk
      simp only [if_pos rfl]
      exact List.mem_append_left _ hv
    · simpa [if_neg hk] using hv

theorem foldl_mergeStep_existing_mono (cfgs : String → List String) (L : List String)
    (acc : (Store × (String → Nat)) × Nat) (k2 v : String) (hv : v ∈ acc.1.1.existing k2) :
    v ∈ ((L.foldl (mergeStep cfgs) acc).1.1.existing k2) := by
  induction L generalizing acc with
  | nil => exact hv
  | cons k0 L ih =>
    exact ih _ (mergeKey_existing_mono acc.1.1 k0 (cfgs k0) k2 v hv)

theorem foldl_mergeStep_mem (cfgs : String → List String) (L : List String)
    (acc : (Store × (String → Nat)) × Nat) (k : String) (hk : k ∈ L) (v : String)
    (hv : v ∈ cfgs k) : v ∈ ((L.foldl (mergeStep cfgs) acc).1.1.existing k) := by
  induction L generalizing acc with
  | nil => cases hk
  | cons k0 L ih =>
    rcases List.mem_cons.1 hk with hk0 | htail
    · subst hk0
      exact foldl_mergeStep_existing_mono cfgs L _ k v
        (mergeKey_mem_existing acc.1.1 k (cfgs k) v hv)
    · exact ih _ htail

theorem foldl_mergeStep_no_new (cfgs : String → List String) (L : List String)
    (acc : (Store × (String → Nat)) × Nat)
    (h : ∀ k ∈ L, ∀ v ∈ cfgs k, v ∈ acc.1.1.existing k) :
    (L.foldl (mergeStep cfgs) acc).1.1 = acc.1.1 ∧ (L.foldl (mergeStep cfgs) acc).2 = acc.2 := by
  induction L generalizing acc with
  | nil => exact ⟨rfl, rfl⟩
  | cons k0 L ih =>
    have hk0 : mergeKey acc.1.1 k0 (cfgs k0) = (acc.1.1, 0) :=
      mergeKey_of_no_new acc.1.1 k0 (cfgs k0) (h k0 (List.mem_cons_self k0 L))
    have hstep : mergeStep cfgs acc k0 =
        ((acc.1.1, fun k2 => if k2 = k0 then acc.1.2 k2 + 0 else acc.1.2 k2), acc.2 + 0) := by
      simp [mergeStep, hk0]
    have htail := ih ((acc.1.1, fun k2 => if k2 = k0 then acc.1.2 k2 + 0 else acc.1.2 k2), acc.2 + 0)
      (fun k hkL v hv => h k (List.mem_cons_of_mem k0 hkL) v hv)
    simp only [List.foldl_cons, hstep]
    exact ⟨htail.1, by rw [htail.2]; exact Nat.add_zero acc.2⟩

/-- Claim C3 — merging is idempotent: `mergeKey` computes the new-entry set
`newServers` (Python `set(values) - existing_servers[key]`) and performs no
file append when it is empty; and running the per-channel merge a second
time with the same configuration mapping leaves the store (both the file
contents and the in-memory sets) exactly as after the first run, with zero
newly written servers. -/
theorem C3_merge_idempotent (st : Store) (counts counts2 : String → Nat)
    (cfgs : String → List String) :
    (mergeChannel (mergeChannel st counts cfgs).1.1 counts2 cfgs).1.1 =
      (mergeChannel st counts cfgs).1.1 ∧
    (mergeChannel (mergeChannel st counts cfgs).1.1 counts2 cfgs).2 = 0 ∧
    ∀ k values, mergeKey st k values =
      if newServers st k values = [] then (st, 0) else mergeKey st k values := by
  have hmem : ∀ k ∈ schemes, ∀ v ∈ cfgs k,
      v ∈ ((mergeChannel st counts cfgs).1.1.existing k) := by
    intro k hk v hv
    exact foldl_mergeStep_mem cfgs schemes ((st, counts), 0) k hk v hv
  have hno := foldl_mergeStep_no_new cfgs schemes
    (((mergeChannel st counts cfgs).1.1, counts2), 0) hmem
  refine ⟨hno.1, hno.2, ?_⟩
  intro k values
  by_cases hns : newServers st k values = []
  · simp [mergeKey, hns]
  · simp [hns]

/-- Claim C10 — each channel contributes to exactly one of the
successful-channel or failed-channel counters: `extract_and_update_channel`
returns `successful_new + failed_new = 1`, with `successful_new = 1`
exactly when the fetch returned a configuration mapping (a Python dict
with the five keys, truthy even when all five lists are empty) and
`failed_new = 1` exactly when `get_v2ray_links` returned `None`. -/
theorem C10_channel_counted_once (fetched : Option (String → List String))
    (st : Store) (counts : String → Nat) :
    (extract_and_update_channel fetched st counts).1.1 +
      (extract_and_update_channel fetched st counts).1.2.1 = 1 ∧
    ((extract_and_update_channel fetched st counts).1.1 = 1 ↔ fetched.isSome = true) ∧
    ((extract_and_update_channel fetched st counts).1.2.1 = 1 ↔ fetched = none) := by
  cases fetched <;> simp [extract_and_update_channel]

/-! ## Classification lemmas -/

/-- The region bucket `save_configs_by_region` sends a config to: `some r`
when the IP is truthy and resolves to a region `r ≠ "Unknown"`, `none`
when the entry counts as a classification failure. -/
def bucketOf (reader : String → Except String (Option String)) (config : String) :
    Option String :=
  match extract_server_ip config with
  | some ip =>
    if ip = "" then none
    else if get_country_from_ip reader ip = "Unknown" then none
    else some (get_country_from_ip reader ip)
  | none => none

theorem update_country_count_regionFiles (total : Nat) (r : String) (st : GeoState) :
    (update_country_count total r st).regionFiles = st.regionFiles := rfl

theorem update_country_count_failed (total : Nat) (r : String) (st : GeoState) :
    (update_country_count total r st).failed = st.failed := rfl

theorem update_country_count_invalid (total : Nat) (r : String) (st : GeoState) :
    (update_country_count total r st).invalidLinks = st.invalidLinks := rfl

theorem processConfig_of_bucket_some (reader : String → Except String (Option String))
    (total : Nat) (st : GeoState) (config r : String)
    (hb : bucketOf reader config = some r) :
    (processConfig reader total st config).regionFiles = regionAppend st.regionFiles r config ∧
    (processConfig reader total st config).failed = st.failed ∧
    (processConfig reader total st config).invalidLinks = st.invalidLinks := by
  unfold bucketOf at hb
  cases hie : extract_server_ip config with
  | none => rw [hie] at hb; cases hb
  | some ip =>
    rw [hie] at hb
    by_cases hip : ip = ""
    · simp [hip] at hb
    · by_cases hr : get_country_from_ip reader ip = "Unknown"
      · simp [hip, hr] at hb
      · simp [hip, hr] at hb
        subst hb
        simp [processConfig, hie, hip, hr, update_country_count_regionFiles,
          update_country_count_failed, update_country_count_invalid]

theorem processConfig_of_bucket_none (reader : String → Except String (Option String))
    (total : Nat) (st : GeoState) (config : String)
    (hb : bucketOf reader config = none) :
    (processConfig reader total st config).regionFiles = st.regionFiles ∧
    (processConfig reader total st config).failed = st.failed + 1 := by
  unfold bucketOf at hb
  cases hie : extract_server_ip config with
  | none => simp [processConfig, hie]
  | some ip =>
    rw [hie] at hb
    by_cases hip : ip = ""
    · simp [processConfig, hie, hip]
    · by_cases hr : get_country_from_ip reader ip = "Unknown"
      · simp [processConfig, hie, hip, hr]
      · simp [hip, hr] at hb

theorem regionLines_append (rf : List (String × List String)) (r c r2 : String) :
    regionLines (regionAppend rf r c) r2 =
      if r2 = r then regionLines rf r2 ++ [c] else regionLines rf r2 := by
  induction rf with
  | nil =>
    by_cases h : r = r2
    · subst h; simp [regionAppend, regionLines]
    · have h2 : ¬ r2 = r := fun hh => h hh.symm
      simp [regionAppend, regionLines, h, h2]
  | cons p rest ih =>
    obtain ⟨a, l⟩ := p
    by_cases ha : a = r
    · subst ha
      by_cases h2 : a = r2
      · subst h2; simp [regionAppend, regionLines]
      · have h3 : ¬ r2 = a := fun hh => h2 hh.symm
        simp [regionAppend, regionLines, h2, h3]
    · by_cases h2 : a = r2
      · have h4 : ¬ r2 = r := fun hh => ha (h2.trans hh)
        simp [regionAppend, regionLines, ha, h2, h4]
      · simp [regionAppend, regionLines, ha, h2, ih]

theorem regionTotal_append (rf : List (String × List String)) (r c : String) :
    regionTotal (regionAppend rf r c) = regionTotal rf + 1 := by
  induction rf with
  | nil => simp [regionAppend, regionTotal]
  | cons p rest ih =>
    obtain ⟨a, l⟩ := p
    by_cases ha : a = r
    · subst ha; simp [regionAppend, regionTotal]; omega
    · simp [regionAppend, regionTotal, ha] at ih ⊢; omega

theorem save_configs_cons (reader : String → Except String (Option String)) (total : Nat)
    (st : GeoState) (c : String) (cs : List String) :
    save_configs_by_region reader total st (c :: cs) =
      save_configs_by_region reader total (processConfig reader total st c) cs := rfl

/-- Claim C1 (amended part) — classification is a partition in terms of the
*files and the failure counter*: each processed entry either lands in
exactly one region file or increments `failed_servers`, so the total
number of region-file lines plus `failed_servers` grows by exactly the
number of entries read from the merged store.  (The *reported*
`successful_servers` counter is a different quantity — see the
counterexample theorem.) -/
theorem C1_classification_partition_amended (reader : String → Except String (Option String))
    (total : Nat) (st : GeoState) (configs : List String) :
    regionTotal (save_configs_by_region reader total st configs).regionFiles +
      (save_configs_by_region reader total st configs).failed =
    regionTotal st.regionFiles + st.failed + configs.length := by
  induction configs generalizing st with
  | nil => simp [save_configs_by_region]
  | cons c cs ih =>
    rw [save_configs_cons, ih]
    cases hb : bucketOf reader c with
    | none =>
      obtain ⟨h1, h2⟩ := processConfig_of_bucket_none reader total st c hb
      rw [h1, h2]
      simp only [List.length_cons]
      omega
    | some r =>
      obtain ⟨h1, h2, -⟩ := processConfig_of_bucket_some reader total st c r hb
      rw [h1, h2, regionTotal_append]
      simp only [List.length_cons]
      omega

/-- Claim C1 (counterexample) — the reported geo counters violate
`successful + failed == total`: classifying the three-entry merged store
`["badconfig", "x@1.1.1.1:80", "y@2.2.2.2:80"]` (one IP-extraction
failure, then Germany, then France) from a fresh state reports
`successful_servers = 3` and `failed_servers = 1` although only two
entries were placed into region buckets — `update_country_count`
re-reads `country_count.log` with `lines[2:]`, parsing its own
`"Failed: 1"` header line as a country count, which inflates the
successful sum; `3 + 1 ≠ 3`. -/
theorem C1_report_counters_counterexample :
    c1configs.length = 3 ∧
    c1final.successful = 3 ∧
    c1final.failed = 1 ∧
    regionTotal c1final.regionFiles = 2 ∧
    c1final.successful + c1final.failed ≠ c1configs.length := by decide

/-- Claim C6 (amended) — no region file is ever deleted and no cap is
applied: classification *appends* each successfully classified entry to
its region file in processing order, so after a run each region file is
exactly its previous content followed by this run's entries bucketed to
that region. -/
theorem C6_region_append_amended (reader : String → Except String (Option String))
    (total : Nat) (st : GeoState) (configs : List String) (r : String) :
    regionLines (save_configs_by_region reader total st configs).regionFiles r =
      regionLines st.regionFiles r ++
        configs.filter (fun c => bucketOf reader c = some r) := by
  induction configs generalizing st with
  | nil => simp [save_configs_by_region]
  | cons c cs ih =>
    rw [save_configs_cons, ih]
    cases hb : bucketOf reader c with
    | none =>
      obtain ⟨h1, -⟩ := processConfig_of_bucket_none reader total st c hb
      rw [h1]
      simp [List.filter_cons, hb]
    | some r2 =>
      obtain ⟨h1, -, -⟩ := processConfig_of_bucket_some reader total st c r2 hb
      rw [h1, regionLines_append]
      by_cases hr : r = r2
      · subst hr
        simp [List.filter_cons, hb]
      · have hne : ¬ (some r2 = some r) := fun hh => hr (Option.some.inj hh).symm
        simp [List.filter_cons, hb, hr, hne]

/-- Claim C6 (counterexample) — prior region files are *not* deleted at the
start of classification: starting with `ServerByRegion/Germany.txt`
containing the line `"old"`, classifying one Germany-resolving config
leaves `"old"` in place and appends (oldest-first, not newest-first). -/
theorem C6_region_retention_counterexample :
    regionLines c6run.regionFiles "Germany" = ["old", "x@1.1.1.1:80"] ∧
    "old" ∈ regionLines c6run.regionFiles "Germany" := by decide

/-- Claim C2 (counterexample) — region rotation groups *can* hold repeated
lines: classifying the same one-entry merged store twice (what two
successive program runs do, since classification re-reads the unchanged
merged folder in full) appends the same config twice to
`ServerByRegion/Germany.txt`. -/
theorem C2_region_duplicate_counterexample :
    regionLines c2geo2.regionFiles "Germany" = ["x@1.1.1.1:80", "x@1.1.1.1:80"] ∧
    ¬ (regionLines c2geo2.regionFiles "Germany").Nodup := by decide

/-- Claim C9 — `get_country_from_ip` is total over its reader collaborator:
for every IP it returns a non-empty string and never propagates an
exception (the Lean embedding is a total function whose error branches
are the two Python handlers), and — provided the database never yields
the literal country name `"Unknown"` itself — it returns the sentinel
`"Unknown"` exactly when the lookup raises or the database yields
`None`/empty. -/
theorem C9_get_country_total (reader : String → Except String (Option String)) (ip : String)
    (h : ∀ name, reader ip = .ok (some name) → name ≠ "Unknown") :
    get_country_from_ip reader ip ≠ "" ∧
    (get_country_from_ip reader ip = "Unknown" ↔
      reader ip = .ok none ∨ reader ip = .ok (some "") ∨ ∃ e, reader ip = .error e) := by
  cases hr : reader ip with
  | error e =>
    refine ⟨by simp [get_country_from_ip, hr], ?_⟩
    simp [get_country_from_ip, hr]
  | ok name =>
    cases name with
    | none =>
      refine ⟨by simp [get_country_from_ip, hr], ?_⟩
      simp [get_country_from_ip, hr]
    | some s =>
      by_cases hs : s = ""
      · subst hs
        refine ⟨by simp [get_country_from_ip, hr], ?_⟩
        simp [get_country_from_ip, hr]
      · have hu : s ≠ "Unknown" := h s hr
        refine ⟨by simp [get_country_from_ip, hr, hs], ?_⟩
        simp [get_country_from_ip, hr, hs, hu]

/-- Witness for C9 at a concrete reader that raises
`AddressNotFoundError`. -/
theorem C9_get_country_total_witness :
    get_country_from_ip (fun _ => Except.error "AddressNotFoundError") "203.0.113.9" ≠ "" ∧
    (get_country_from_ip (fun _ => Except.error "AddressNotFoundError") "203.0.113.9" = "Unknown" ↔
      (fun _ => (Except.error "AddressNotFoundError" : Except String (Option String))) "203.0.113.9"
          = .ok none ∨
      (fun _ => (Except.error "AddressNotFoundError" : Except String (Option String))) "203.0.113.9"
          = .ok (some "") ∨
      ∃ e, (fun _ => (Except.error "AddressNotFoundError" : Except String (Option String)))
          "203.0.113.9" = .error e) :=
  C9_get_country_total (fun _ => Except.error "AddressNotFoundError") "203.0.113.9"
    (fun _ hn => Except.noConfusion hn)

/-- Claim C7 (counterexample) — absence of the GeoLite2 database *is*
fatal: with a readable, non-empty channel list and the database failing
to open (`FileNotFoundError`), the run calls `sys.exit(1)` instead of
skipping classification. -/
theorem C7_geo_missing_fatal_counterexample :
    (runOnce (some ["https://t.me/s/chan"]) (fun _ => none) false readerDE_FR none
      emptyFiles geoInit).exit = some 1 ∧
    read_telegram_channels (some ["https://t.me/s/chan"]) = ["https://t.me/s/chan"] := by decide

/-- Claim C7 (amended) — the run exits non-zero exactly when the cleaned
channel list is empty (missing, unreadable, or containing no non-blank
line) *or* the GeoLite2 database cannot be opened; the exit status is
independent of every per-channel fetch outcome, of the GeoIP lookup
results, and of all persisted state, so no single channel or single
classification failure aborts the run. -/
theorem C7_exit_characterization_amended (cf : Option (List String))
    (fetch : String → Option (String → List String)) (go : Bool)
    (reader : String → Except String (Option String)) (prevLog : Option LogData)
    (files0 : String → List String) (geo0 : GeoState) :
    (runOnce cf fetch go reader prevLog files0 geo0).exit =
      (if read_telegram_channels cf = [] then some 1 else if go then none else some 1) ∧
    ∀ fetch2 reader2 prevLog2 files02 geo02,
      (runOnce cf fetch2 go reader2 prevLog2 files02 geo02).exit =
        (runOnce cf fetch go reader prevLog files0 geo0).exit := by
  have key : ∀ (f : String → Option (String → List String))
      (rd : String → Except String (Option String)) (pl : Option LogData)
      (fs : String → List String) (g0 : GeoState),
      (runOnce cf f go rd pl fs g0).exit =
        (if read_telegram_channels cf = [] then some 1 else if go then none else some 1) := by
    intro f rd pl fs g0
    by_cases hurls : read_telegram_channels cf = []
    · simp [runOnce, hurls]
    · cases go <;> simp [runOnce, hurls]
  refine ⟨key fetch reader prevLog files0 geo0, ?_⟩
  intro fetch2 reader2 prevLog2 files02 geo02
  rw [key fetch2 reader2 prevLog2 files02 geo02, key fetch reader prevLog files0 geo0]

/-! ## Store uniqueness invariant -/

/-- Invariant of the per-protocol store: every `{key}.txt` is free of
repeated lines, and every persisted line is tracked by the in-memory
`existing_servers` set. -/
def StoreInv (st : Store) : Prop :=
  ∀ k, (st.files k).Nodup ∧ ∀ l ∈ st.files k, l ∈ st.existing k

theorem mergeKey_storeInv (st : Store) (k : String) (values : List String)
    (h : StoreInv st) : StoreInv (mergeKey st k values).1 := by
  by_cases hns : newServers st k values = []
  · simpa [mergeKey, hns] using h
  · intro k2
    simp only [mergeKey, if_neg hns]
    by_cases hk : k2 = k
    · subst hk
      simp only [if_pos rfl]
      constructor
      · refine List.Nodup.append (h k2).1 ?_ ?_
        · exact ((List.nodup_dedup values).filter _).filter _
        · intro a ha haf
          have hex : a ∈ st.existing k2 := (h k2).2 a ha
          have : a ∉ st.existing k2 := by
            have := (List.mem_filter.1 haf).2
            simpa using this
          exact this hex
      · intro l hl
        rcases List.mem_append.1 hl with hl1 | hl2
        · exact List.mem_append_left _ ((h k2).2 l hl1)
        · exact List.mem_append_right _ hl2
    · simpa [hk] using h k2

theorem foldl_mergeStep_storeInv (cfgs : String → List String) (L : List String)
    (acc : (Store × (String → Nat)) × Nat) (h : StoreInv acc.1.1) :
    StoreInv ((L.foldl (mergeStep cfgs) acc).1.1) := by
  induction L generalizing acc with
  | nil => exact h
  | cons k0 L ih => exact ih _ (mergeKey_storeInv acc.1.1 k0 (cfgs k0) h)

theorem extract_and_update_channel_storeInv (fetched : Option (String → List String))
    (st : Store) (counts : String → Nat) (h : StoreInv st) :
    StoreInv (extract_and_update_channel fetched st counts).2.1 := by
  cases fetched with
  | none => exact h
  | some cfgs => exact foldl_mergeStep_storeInv cfgs schemes ((st, counts), 0) h

theorem runExtraction_storeInv (chs : List (String × Option (String → List String)))
    (files0 : String → List String) (h : StoreInv (extInit files0).store) :
    StoreInv (runExtraction chs files0).store := by
  unfold runExtraction
  generalize (extInit files0) = acc at h
  induction chs generalizing acc with
  | nil => exact h
  | cons ch chs ih =>
    exact ih _ (extract_and_update_channel_storeInv ch.2 acc.store acc.countsNew h)

/-- Claim C2 (amended) — the per-protocol store does keep the uniqueness
invariant: starting from duplicate-free `{key}.txt` files, any run of the
extraction loop (any channel list, any fetch outcomes) leaves every
per-protocol file free of repeated lines; the merge appends only entries
absent from the in-memory set loaded from those same files.  Region
files, in contrast, admit duplicates (see the counterexample). -/
theorem C2_protocol_nodup_amended (chs : List (String × Option (String → List String)))
    (files0 : String → List String) (h : ∀ k, (files0 k).Nodup) :
    ∀ k, ((runExtraction chs files0).store.files k).Nodup := by
  have hinv : StoreInv (extInit files0).store := by
    intro k
    exact ⟨h k, fun l hl => List.mem_dedup.2 hl⟩
  intro k
  exact (runExtraction_storeInv chs files0 hinv k).1

/-- Witness for C2's amended theorem: one channel contributing one vmess
config over initially empty files. -/
theorem C2_protocol_nodup_witness :
    (∀ k : String, (emptyFiles k).Nodup) ∧
    ∀ k, ((runExtraction [("tgchan", some cfgA)] emptyFiles).store.files k).Nodup :=
  ⟨fun _ => List.nodup_nil,
   C2_protocol_nodup_amended [("tgchan", some cfgA)] emptyFiles (fun _ => List.nodup_nil)⟩

/-! ## Report count lemmas -/

theorem mergeKey_files_len (st : Store) (k : String) (values : List String) (k2 : String) :
    ((mergeKey st k values).1.files k2).length =
      (st.files k2).length + (if k2 = k then (mergeKey st k values).2 else 0) := by
  by_cases hns : newServers st k values = []
  · simp [mergeKey, hns]
  · by_cases hk : k2 = k
    · subst hk
      simp [mergeKey, hns]
    · simp [mergeKey, hns, hk]

theorem foldl_mergeStep_files_len (cfgs : String → List String) (L : List String)
    (acc : (Store × (String → Nat)) × Nat) (k : String) :
    ((L.foldl (mergeStep cfgs) acc).1.1.files k).length + acc.1.2 k =
      (acc.1.1.files k).length + (L.foldl (mergeStep cfgs) acc).1.2 k := by
  induction L generalizing acc with
  | nil => rfl
  | cons k0 L ih =>
    simp only [List.foldl_cons]
    have hstep := ih (mergeStep cfgs acc k0)
    have hlen := mergeKey_files_len acc.1.1 k0 (cfgs k0) k
    have hst : (mergeStep cfgs acc k0).1.1 = (mergeKey acc.1.1 k0 (cfgs k0)).1 := rfl
    have hcn : (mergeStep cfgs acc k0).1.2 k =
        if k = k0 then acc.1.2 k + (mergeKey acc.1.1 k0 (cfgs k0)).2 else acc.1.2 k := rfl
    rw [hst, hcn] at hstep
    by_cases hk : k = k0
    · rw [if_pos hk] at hstep hlen
      omega
    · rw [if_neg hk] at hstep hlen
      omega

theorem runExtraction_counts (chs : List (String × Option (String → List String)))
    (files0 : String → List String) (k : String) :
    ((runExtraction chs files0).store.files k).length =
      (runExtraction chs files0).countsStart k + (runExtraction chs files0).countsNew k := by
  unfold runExtraction
  have hbase : ((extInit files0).store.files k).length =
      (extInit files0).countsStart k + (extInit files0).countsNew k := by
    simp [extInit]
  generalize (extInit files0) = acc at hbase
  induction chs generalizing acc with
  | nil => exact hbase
  | cons ch chs ih =>
    refine ih _ ?_
    cases hf : ch.2 with
    | none =>
      simpa [extChannelStep, extract_and_update_channel, hf] using hbase
    | some cfgs =>
      have hlen := foldl_mergeStep_files_len cfgs schemes ((acc.store, acc.countsNew), 0) k
      have hp1 : (((acc.store, acc.countsNew), 0) : (Store × (String → Nat)) × Nat).1.2 =
          acc.countsNew := rfl
      have hp2 : (((acc.store, acc.countsNew), 0) : (Store × (String → Nat)) × Nat).1.1 =
          acc.store := rfl
      rw [hp1, hp2] at hlen
      have h1 : (extChannelStep acc ch).store = (mergeChannel acc.store acc.countsNew cfgs).1.1 := by
        simp [extChannelStep, extract_and_update_channel, hf]
      have h2 : (extChannelStep acc ch).countsNew k =
          (mergeChannel acc.store acc.countsNew cfgs).1.2 k := by
        simp [extChannelStep, extract_and_update_channel, hf]
      have h3 : (extChannelStep acc ch).countsStart = acc.countsStart := by
        simp [extChannelStep]
      rw [h1, h2, h3]
      unfold mergeChannel
      omega

/-- Claim C8 (amended part) — the per-protocol "All" counts in the report
do equal the line counts of the persisted `{key}.txt` files at report
time: `existing_server_counts[key]` (read at startup) plus the in-memory
`server_counts_new[key]` equals the final file length, for every channel
list and every fetch outcome. -/
theorem C8_counts_from_files_amended (chs : List (String × Option (String → List String)))
    (files0 : String → List String) (prevLog : Option LogData) :
    ∀ k, (save_updated_data prevLog (runExtraction chs files0)).countsAll k =
      ((runExtraction chs files0).store.files k).length := by
  intro k
  have := runExtraction_counts chs files0 k
  simp [save_updated_data]
  omega

/-- Claim C8 (counterexample) — the all-time total in the report does
*not* equal a re-read of the persisted stores: it is computed as the
previous report's per-run ("New") total plus this run's in-memory total.
After run 1 adds `vmess://A`, run 2 adds `vmess://B`, and run 3 finds
nothing new, the final report says `Total Extracted Servers (All) = 1`
while the persisted merged folder holds 2 lines. -/
theorem C8_stale_total_counterexample :
    c8run3.log.map LogData.totalAll = some 1 ∧
    (get_v2ray_links_from_folder c8run3.store.files).length = 2 ∧
    c8run3.log.map LogData.totalAll ≠
      some (get_v2ray_links_from_folder c8run3.store.files).length := by decide

/-! ## Extractor lemmas -/

/-- Two candidate prefixes that disagree at some position cannot both be
prefixes of the same text. -/
theorem not_both_prefixes (p q t : List Char) (i : Nat)
    (hi : i < p.length) (hj : i < q.length) (hne : p[i]? ≠ q[i]?)
    (h1 : p.isPrefixOf t = true) (h2 : q.isPrefixOf t = true) : False := by
  obtain ⟨r1, hr1⟩ := List.isPrefixOf_iff_prefix.1 h1
  obtain ⟨r2, hr2⟩ := List.isPrefixOf_iff_prefix.1 h2
  have e1 : t[i]? = p[i]? := by rw [← hr1]; exact List.getElem?_append_left hi
  have e2 : t[i]? = q[i]? := by rw [← hr2]; exact List.getElem?_append_left hj
  exact hne (e1.symm.trans e2)

theorem pyStartsWith_excl (p q t : String) (i : Nat)
    (hi : i < p.data.length) (hj : i < q.data.length) (hne : p.data[i]? ≠ q.data[i]?)
    (h1 : pyStartsWith p t = true) : pyStartsWith q t = false := by
  cases hq : pyStartsWith q t
  · rfl
  · exact (not_both_prefixes p.data q.data t.data i hi hj hne h1 hq).elim

/-- The five recognized `scheme://` prefixes are pairwise exclusive (they
disagree within the first two characters), so the first-match loop of
`get_v2ray_links` finds `k` exactly when the text starts with
`k + "://"`. -/
theorem classifyText_eq_some_iff (t k : String) (hk : k ∈ schemes) :
    classifyText t = some k ↔ pyStartsWith (k ++ "://") t = true := by
  constructor
  · intro h
    have h2 : List.find? (fun k2 => pyStartsWith (k2 ++ "://") t) schemes = some k := h
    have h3 := List.find?_some h2
    exact h3
  · intro hs
    fin_cases hk
    · have hs2 : pyStartsWith "vmess://" t = true := hs
      show List.find? _ _ = _
      unfold schemes
      rw [List.find?_cons_of_pos _ (by simp [hs2])]
    · have hs2 : pyStartsWith "vless://" t = true := hs
      have n1 : pyStartsWith "vmess://" t = false :=
        pyStartsWith_excl "vless://" "vmess://" t 1 (by decide) (by decide) (by decide) hs2
      show List.find? _ _ = _
      unfold schemes
      rw [List.find?_cons_of_neg _ (by simp [n1]), List.find?_cons_of_pos _ (by simp [hs2])]
    · have hs2 : pyStartsWith "ss://" t = true := hs
      have n1 : pyStartsWith "vmess://" t = false :=
        pyStartsWith_excl "ss://" "vmess://" t 0 (by decide) (by decide) (by decide) hs2
      have n2 : pyStartsWith "vless://" t = false :=
        pyStartsWith_excl "ss://" "vless://" t 0 (by decide) (by decide) (by decide) hs2
      show List.find? _ _ = _
      unfold schemes
      rw [List.find?_cons_of_neg _ (by simp [n1]), List.find?_cons_of_neg _ (by simp [n2]),
        List.find?_cons_of_pos _ (by simp [hs2])]
    · have hs2 : pyStartsWith "trojan://" t = true := hs
      have n1 : pyStartsWith "vmess://" t = false :=
        pyStartsWith_excl "trojan://" "vmess://" t 0 (by decide) (by decide) (by decide) hs2
      have n2 : pyStartsWith "vless://" t = false :=
        pyStartsWith_excl "trojan://" "vless://" t 0 (by decide) (by decide) (by decide) hs2
      have n3 : pyStartsWith "ss://" t = false :=
        pyStartsWith_excl "trojan://" "ss://" t 0 (by decide) (by decide) (by decide) hs2
      show List.find? _ _ = _
      unfold schemes
      rw [List.find?_cons_of_neg _ (by simp [n1]), List.find?_cons_of_neg _ (by simp [n2]),
        List.find?_cons_of_neg _ (by simp [n3]), List.find?_cons_of_pos _ (by simp [hs2])]
    · have hs2 : pyStartsWith "tuic://" t = true := hs
      have n1 : pyStartsWith "vmess://" t = false :=
        pyStartsWith_excl "tuic://" "vmess://" t 1 (by decide) (by decide) (by decide) hs2
      have n2 : pyStartsWith "vless://" t = false :=
        pyStartsWith_excl "tuic://" "vless://" t 1 (by decide) (by decide) (by decide) hs2
      have n3 : pyStartsWith "ss://" t = false :=
        pyStartsWith_excl "tuic://" "ss://" t 0 (by decide) (by decide) (by decide) hs2
      have n4 : pyStartsWith "trojan://" t = false :=
        pyStartsWith_excl "tuic://" "trojan://" t 1 (by decide) (by decide) (by decide) hs2
      show List.find? _ _ = _
      unfold schemes
      rw [List.find?_cons_of_neg _ (by simp [n1]), List.find?_cons_of_neg _ (by simp [n2]),
        List.find?_cons_of_neg _ (by simp [n3]), List.find?_cons_of_neg _ (by simp [n4]),
        List.find?_cons_of_pos _ (by simp [hs2])]

/-- Claim C4 (amended) — the extractor performs no substring search:
for every recognized scheme `k`, the `k` bucket holds exactly the
whole message texts that *start with* `k://` (with the other schemes
automatically excluded, as no text can start with two of the five
prefixes).  Embedded occurrences of `scheme://...` later in a text are
never extracted, and matches are the entire element text, not a token
bounded at whitespace or angle brackets. -/
theorem C4_extractor_membership_amended (texts : List String) (k t : String)
    (hk : k ∈ schemes) :
    t ∈ get_v2ray_links texts k ↔ t ∈ texts ∧ pyStartsWith (k ++ "://") t = true := by
  unfold get_v2ray_links
  rw [List.mem_dedup, List.mem_filter]
  constructor
  · rintro ⟨ht, hp⟩
    have hcl : classifyText t = some k := by simpa using hp
    exact ⟨ht, (classifyText_eq_some_iff t k hk).1 hcl⟩
  · rintro ⟨ht, hs⟩
    refine ⟨ht, ?_⟩
    simpa using (classifyText_eq_some_iff t k hk).2 hs

/-- Witness for C4's amended theorem at a concrete scheme, text list and
member text. -/
theorem C4_extractor_membership_witness :
    "ss" ∈ schemes ∧
    ("ss://x" ∈ get_v2ray_links ["ss://x"] "ss" ↔
      "ss://x" ∈ ["ss://x"] ∧ pyStartsWith ("ss" ++ "://") "ss://x" = true) :=
  ⟨by decide, C4_extractor_membership_amended ["ss://x"] "ss" "ss://x" (by decide)⟩

/-- Claim C4 (counterexample) — a text block containing both
`vmess://abc` and `vless://xyz` does *not* yield
`{vmess:{vmess://abc}, vless:{vless://xyz}}`: the code checks only
`text.startswith` and adds the whole text, so the vmess bucket holds the
entire block and the vless bucket is empty. -/
theorem C4_whole_text_counterexample :
    get_v2ray_links ["vmess://abc vless://xyz"] "vmess" = ["vmess://abc vless://xyz"] ∧
    get_v2ray_links ["vmess://abc vless://xyz"] "vless" = [] ∧
    "vmess://abc vless://xyz" ≠ "vmess://abc" := by decide

/-! ## IP extraction lemmas -/

theorem splitCharAux_ne_nil (sep : Char) (xs acc : List Char) :
    splitCharAux sep xs acc ≠ [] := by
  induction xs generalizing acc with
  | nil => simp [splitCharAux]
  | cons c cs ih =>
    by_cases h : c = sep
    · simp [splitCharAux, h]
    · simpa [splitCharAux, h] using ih (c :: acc)

theorem splitCharAux_no_sep (sep : Char) (xs acc : List Char) (h : sep ∉ xs) :
    splitCharAux sep xs acc = [acc.reverse ++ xs] := by
  induction xs generalizing acc with
  | nil => simp [splitCharAux]
  | cons c cs ih =>
    have hc : ¬ c = sep := fun hh => h (hh ▸ List.mem_cons_self c cs)
    rw [splitCharAux, if_neg hc, ih (c :: acc) (fun hm => h (List.mem_cons_of_mem c hm))]
    simp

theorem splitCharAux_sep_split (sep : Char) (xs ys acc : List Char) (h : sep ∉ xs) :
    splitCharAux sep (xs ++ sep :: ys) acc =
      (acc.reverse ++ xs) :: splitCharAux sep ys [] := by
  induction xs generalizing acc with
  | nil => simp [splitCharAux]
  | cons c cs ih =>
    have hc : ¬ c = sep := fun hh => h (hh ▸ List.mem_cons_self c cs)
    rw [List.cons_append, splitCharAux, if_neg hc,
      ih (c :: acc) (fun hm => h (List.mem_cons_of_mem c hm))]
    simp

theorem splitCharAux_head (sep : Char) (xs acc : List Char) :
    ∃ t2, splitCharAux sep xs acc =
      (acc.reverse ++ xs.takeWhile (fun c => !decide (c = sep))) :: t2 := by
  induction xs generalizing acc with
  | nil => exact ⟨[], by simp [splitCharAux]⟩
  | cons c cs ih =>
    by_cases h : c = sep
    · refine ⟨splitCharAux sep cs [], ?_⟩
      rw [splitCharAux, if_pos h]
      simp [List.takeWhile_cons, h]
    · obtain ⟨t2, ht2⟩ := ih (c :: acc)
      refine ⟨t2, ?_⟩
      rw [splitCharAux, if_neg h, ht2]
      simp [List.takeWhile_cons, h]

theorem takeWhile_append_of_all {α : Type} (p : α → Bool) (xs ys : List α)
    (h : ∀ c ∈ xs, p c = true) :
    (xs ++ ys).takeWhile p = xs ++ ys.takeWhile p := by
  induction xs with
  | nil => simp
  | cons c cs ih =>
    rw [List.cons_append, List.takeWhile_cons, if_pos (h c (List.mem_cons_self c cs)),
      ih (fun c2 hc2 => h c2 (List.mem_cons_of_mem c hc2))]
    rfl

theorem data_mk (xs : List Char) : (String.mk xs).data = xs := rfl

/-- Claim C5 (amended) — the IP used for geo-classification is the token
between the *first* `'@'` and the next `':'` inside the segment that
ends at the second `'@'` (or at the end of the string): for every config
whose character sequence decomposes as `pre ++ '@' ++ mid ++ ':' ++ rest`
with no `'@'` in `pre` and no `'@'`/`':'` in `mid` (while `rest` is
arbitrary, so later `'@'` occurrences are irrelevant), the extracted IP
is `mid`; a config without `'@'` yields `None`; and a `None` extraction
counts the entry as failed and appends it to `invalid_links.txt`,
leaving the region files — and the merged store, which classification
never writes — untouched. -/
theorem C5_extract_ip_amended (pre mid rest config : String)
    (heq : config.data = pre.data ++ '@' :: (mid.data ++ ':' :: rest.data))
    (hpre : '@' ∉ pre.data) (hmid1 : '@' ∉ mid.data) (hmid2 : ':' ∉ mid.data) :
    extract_server_ip config = some mid ∧
    (∀ config2 : String, '@' ∉ config2.data → extract_server_ip config2 = none) ∧
    (∀ (reader : String → Except String (Option String)) (total : Nat) (st : GeoState)
        (config2 : String), extract_server_ip config2 = none →
      (processConfig reader total st config2).failed = st.failed + 1 ∧
      (processConfig reader total st config2).invalidLinks = st.invalidLinks ++ [config2] ∧
      (processConfig reader total st config2).regionFiles = st.regionFiles) := by
  refine ⟨?_, ?_, ?_⟩
  · unfold extract_server_ip pySplit
    rw [heq, splitCharAux_sep_split '@' pre.data _ [] hpre]
    obtain ⟨t2, ht2⟩ := splitCharAux_head '@' (mid.data ++ ':' :: rest.data) []
    rw [ht2]
    have htake : (mid.data ++ ':' :: rest.data).takeWhile (fun c => !decide (c = '@')) =
        mid.data ++ ':' :: rest.data.takeWhile (fun c => !decide (c = '@')) := by
      rw [takeWhile_append_of_all _ mid.data _
        (fun c hc => by simp; exact fun hh => hmid1 (hh ▸ hc))]
      simp [List.takeWhile_cons]
    rw [htake]
    simp only [List.map_cons, List.reverse_nil, List.nil_append, data_mk]
    rw [splitCharAux_sep_split ':' mid.data _ [] hmid2]
    obtain ⟨h2, t3, ht3⟩ := List.exists_cons_of_ne_nil
      (splitCharAux_ne_nil ':' (rest.data.takeWhile (fun c => !decide (c = '@'))) [])
    rw [ht3]
    rfl
  · intro config2 hc
    unfold extract_server_ip pySplit
    rw [splitCharAux_no_sep '@' config2.data [] hc]
    rfl
  · intro reader total st config2 hnone
    refine ⟨?_, ?_, ?_⟩ <;> simp [processConfig, hnone]

/-- Witness for C5's amended theorem at the concrete config
`user@1.2.3.4:443`. -/
theorem C5_extract_ip_witness :
    ("user@1.2.3.4:443").data =
        "user".data ++ '@' :: ("1.2.3.4".data ++ ':' :: "443".data) ∧
    '@' ∉ "user".data ∧ '@' ∉ "1.2.3.4".data ∧ ':' ∉ "1.2.3.4".data ∧
    (extract_server_ip "user@1.2.3.4:443" = some "1.2.3.4" ∧
      (∀ config2 : String, '@' ∉ config2.data → extract_server_ip config2 = none) ∧
      (∀ (reader : String → Except String (Option String)) (total : Nat) (st : GeoState)
          (config2 : String), extract_server_ip config2 = none →
        (processConfig reader total st config2).failed = st.failed + 1 ∧
        (processConfig reader total st config2).invalidLinks = st.invalidLinks ++ [config2] ∧
        (processConfig reader total st config2).regionFiles = st.regionFiles)) :=
  ⟨by decide, by decide, by decide, by decide,
   C5_extract_ip_amended "user" "1.2.3.4" "443" "user@1.2.3.4:443"
     (by decide) (by decide) (by decide) (by decide)⟩

/-- Claim C5 (counterexample) — the extracted token is *not* the one
between the last `'@'` and the following `':'`: on `a@b:1@c:2` the code
takes `"b"` (first segment), while the claim's rule takes `"c"` (last
segment). -/
theorem C5_first_at_counterexample :
    extract_server_ip "a@b:1@c:2" = some "b" ∧
    specLastAtIP "a@b:1@c:2" = some "c" ∧
    extract_server_ip "a@b:1@c:2" ≠ specLastAtIP "a@b:1@c:2" := by decide
